import Mathlib

set_option maxRecDepth 8000

/-!
Verification of the Figma-to-HTML/CSS generators in
`src/Components/Output/DownloadFiles.jsx`.

The JavaScript source is shallowly embedded: JS numbers become exact
fractions (`JsNum`, an integer numerator/denominator pair; every value a
JS program manipulates here is such a rational), optional JS fields
become `Option`, JS objects used as ordered key/value stores become
association lists with JS insertion-order/overwrite semantics, and the
scene-graph node type becomes a nested inductive.  The one place where
real analysis enters the source (`Math.atan2` in the gradient-angle
computation) is embedded with `Complex.arg`.
-/

/-- A JavaScript number, represented exactly as an integer fraction
`n / d`.  Well-formed values have a positive denominator (`JsNum.wf`);
all arithmetic below agrees with rational arithmetic on well-formed
values. -/
structure JsNum where
  n : ℤ
  d : ℤ
deriving DecidableEq, Repr

namespace JsNum

/-- Well-formedness: the denominator is positive. -/
def wf (a : JsNum) : Prop := 0 < a.d

/-- The rational value of a `JsNum`. -/
def toRat (a : JsNum) : ℚ := (a.n : ℚ) / (a.d : ℚ)

/-- The real value of a `JsNum`. -/
noncomputable def toReal (a : JsNum) : ℝ := (a.n : ℝ) / (a.d : ℝ)

/-- Embeds an integer. -/
def ofInt (k : ℤ) : JsNum := ⟨k, 1⟩

/-- Addition. -/
def add (a b : JsNum) : JsNum := ⟨a.n * b.d + b.n * a.d, a.d * b.d⟩

/-- Subtraction. -/
def sub (a b : JsNum) : JsNum := ⟨a.n * b.d - b.n * a.d, a.d * b.d⟩

/-- Multiplication. -/
def mul (a b : JsNum) : JsNum := ⟨a.n * b.n, a.d * b.d⟩

/-- Comparison `a <= b` by cross-multiplication (valid on well-formed
values). -/
def leB (a b : JsNum) : Bool := a.n * b.d ≤ b.n * a.d

/-- Comparison `a < b` by cross-multiplication (valid on well-formed
values). -/
def ltB (a b : JsNum) : Bool := a.n * b.d < b.n * a.d

/-- Tests whether the value is zero (JS falsiness of a number). -/
def isZero (a : JsNum) : Bool := a.n = 0

/-- JavaScript `Math.round`: nearest integer, halves toward positive
infinity, i.e. `⌊v + 1/2⌋ = ⌊(2n + d) / (2d)⌋` (for the positive
denominators of well-formed values, integer euclidean division is floor
division). -/
def jsRound (a : JsNum) : ℤ := (2 * a.n + a.d) / (2 * a.d)

/-- JavaScript `Math.min` of two numbers. -/
def minJ (a b : JsNum) : JsNum := if ltB b a then b else a

/-- JavaScript `Math.max` of two numbers. -/
def maxJ (a b : JsNum) : JsNum := if ltB a b then b else a

theorem toRat_ofInt (k : ℤ) : toRat (ofInt k) = (k : ℚ) := by
  simp [toRat, ofInt]

theorem wf_ofInt (k : ℤ) : wf (ofInt k) := by simp [wf, ofInt]

theorem wf_add {a b : JsNum} (ha : a.wf) (hb : b.wf) : (add a b).wf :=
  mul_pos ha hb

theorem wf_sub {a b : JsNum} (ha : a.wf) (hb : b.wf) : (sub a b).wf :=
  mul_pos ha hb

theorem wf_mul {a b : JsNum} (ha : a.wf) (hb : b.wf) : (mul a b).wf :=
  mul_pos ha hb

theorem toRat_add {a b : JsNum} (ha : a.wf) (hb : b.wf) :
    toRat (add a b) = toRat a + toRat b := by
  have ha' : (a.d : ℚ) ≠ 0 := Int.cast_ne_zero.mpr ha.ne'
  have hb' : (b.d : ℚ) ≠ 0 := Int.cast_ne_zero.mpr hb.ne'
  field_simp [toRat, add]

theorem toRat_sub {a b : JsNum} (ha : a.wf) (hb : b.wf) :
    toRat (sub a b) = toRat a - toRat b := by
  have ha' : (a.d : ℚ) ≠ 0 := Int.cast_ne_zero.mpr ha.ne'
  have hb' : (b.d : ℚ) ≠ 0 := Int.cast_ne_zero.mpr hb.ne'
  field_simp [toRat, sub]
  ring

theorem toRat_mul (a b : JsNum) : toRat (mul a b) = toRat a * toRat b := by
  simp [toRat, mul]
  exact div_mul_div_comm _ _ _ _ |>.symm

theorem leB_iff {a b : JsNum} (ha : a.wf) (hb : b.wf) :
    leB a b = true ↔ toRat a ≤ toRat b := by
  have ha' : (0 : ℚ) < (a.d : ℚ) := Int.cast_pos.mpr ha
  have hb' : (0 : ℚ) < (b.d : ℚ) := Int.cast_pos.mpr hb
  rw [leB, decide_eq_true_eq, toRat, toRat, div_le_div_iff ha' hb']
  constructor
  · intro h
    exact_mod_cast h
  · intro h
    exact_mod_cast h

theorem ltB_iff {a b : JsNum} (ha : a.wf) (hb : b.wf) :
    ltB a b = true ↔ toRat a < toRat b := by
  have ha' : (0 : ℚ) < (a.d : ℚ) := Int.cast_pos.mpr ha
  have hb' : (0 : ℚ) < (b.d : ℚ) := Int.cast_pos.mpr hb
  rw [ltB, decide_eq_true_eq, toRat, toRat, div_lt_div_iff ha' hb']
  constructor
  · intro h
    exact_mod_cast h
  · intro h
    exact_mod_cast h

theorem isZero_iff {a : JsNum} (ha : a.wf) : isZero a = true ↔ toRat a = 0 := by
  have ha' : (a.d : ℚ) ≠ 0 := Int.cast_ne_zero.mpr ha.ne'
  rw [isZero, decide_eq_true_eq, toRat, div_eq_zero_iff]
  simp [ha']

theorem jsRound_eq {a : JsNum} (ha : a.wf) : jsRound a = ⌊toRat a + 1 / 2⌋ := by
  have hd0 : (0 : ℤ) < a.d := ha
  have hd : (0 : ℚ) < (a.d : ℚ) := Int.cast_pos.mpr ha
  have h2 : toRat a + 1 / 2 = ((2 * a.n + a.d : ℤ) : ℚ) / ((2 * a.d : ℤ) : ℚ) := by
    rw [toRat]
    push_cast
    field_simp
    ring
  have h4 : ((2 * a.d).toNat : ℤ) = 2 * a.d := Int.toNat_of_nonneg (by positivity)
  have h3 : ((2 * a.d : ℤ) : ℚ) = (((2 * a.d).toNat : ℕ) : ℚ) := by
    exact_mod_cast h4.symm
  rw [h2, h3, Rat.floor_intCast_div_natCast, Int.toNat_of_nonneg (by positivity), jsRound]

end JsNum

/-- Color object `{r,g,b,a}` with channel values (alpha optional, as the
`c.a == null` check in the source treats a missing alpha specially). -/
structure Color where
  r : JsNum
  g : JsNum
  b : JsNum
  a : Option JsNum
deriving DecidableEq, Repr

/-- Gradient handle position `{x, y}`. -/
structure Handle where
  x : JsNum
  y : JsNum
deriving DecidableEq, Repr

/-- Gradient color stop `{position, color}`. -/
structure GradientStop where
  position : Option JsNum
  color : Option Color
deriving DecidableEq, Repr

/-- Paint descriptor: an entry of `fills` / `strokes` / `background`. -/
structure Paint where
  type : String
  visible : Option Bool
  color : Option Color
  opacity : Option JsNum
  gradientHandlePositions : Option (List Handle)
  gradientStops : Option (List GradientStop)
deriving DecidableEq, Repr

/-- Text style object of a TEXT node.  `fontNameFamily` models
`style.fontName.family` when `style.fontName` is an object with a
`family` field. -/
structure TextStyle where
  fontSize : Option JsNum
  fontWeight : Option JsNum
  letterSpacing : Option JsNum
  lineHeightPx : Option JsNum
  fontFamily : Option String
  fontNameFamily : Option String
  textAlignHorizontal : Option String
deriving DecidableEq, Repr

/-- Absolute bounding box `{x, y, width, height}`. -/
structure Box where
  x : JsNum
  y : JsNum
  width : JsNum
  height : JsNum
deriving DecidableEq, Repr

/-- All non-recursive fields of a scene node. -/
structure NodeCore where
  id : String
  type : String
  name : Option String
  visible : Option Bool
  absoluteBoundingBox : Option Box
  fills : Option (List Paint)
  strokes : Option (List Paint)
  background : Option (List Paint)
  backgroundColor : Option Color
  cornerRadius : Option JsNum
  rectangleCornerRadii : Option (List JsNum)
  strokeWeight : Option JsNum
  strokeWidth : Option JsNum
  clipsContent : Option Bool
  style : Option TextStyle
  characters : Option String
deriving DecidableEq, Repr

/-- A scene node: its non-recursive fields plus the ordered children
(child order is rendering/stacking order). -/
inductive Node where
  | mk (core : NodeCore) (children : List Node)

/-- Non-recursive fields of a node. -/
def Node.core : Node → NodeCore
  | .mk c _ => c

/-- Ordered children of a node (a JS node without a `children` field is
modelled by the empty list, which the source treats identically). -/
def Node.children : Node → List Node
  | .mk _ cs => cs

/-- Image map: node id → resolved raster URL (`imagesMap[node.id]`). -/
abbrev ImagesMap : Type := String → Option String

/-- JS truthiness of a possibly-missing string (`undefined` and `""` are
falsy). -/
def strTruthy : Option String → Bool
  | some s => s ≠ ""
  | none => false

/-- JS truthiness of a possibly-missing number (`undefined` and `0` are
falsy). -/
def numTruthy : Option JsNum → Bool
  | some v => !v.isZero
  | none => false

/-- Counts how many times `p` divides `n` (with explicit fuel). -/
def countFactor (p : Nat) : Nat → Nat → Nat
  | 0, _ => 0
  | fuel + 1, n => if p ≤ n ∧ n % p = 0 then countFactor p fuel (n / p) + 1 else 0

/-- Renders a `JsNum` the way JavaScript renders the corresponding
number: sign, then the minimal terminating decimal expansion of the
reduced fraction (`1` ↦ `"1"`, `1/2` ↦ `"0.5"`).  Fractions without a
terminating decimal expansion cannot arise as exact values of JS binary
floating-point numbers; they get a fraction-shaped fallback. -/
def decStr (q : JsNum) : String :=
  let sign := if q.n * q.d < 0 then "-" else ""
  let g := Int.gcd q.n q.d
  let N := q.n.natAbs / g
  let D := q.d.natAbs / g
  let a := countFactor 2 D D
  let b := countFactor 5 D D
  if D = 2 ^ a * 5 ^ b then
    let k := max a b
    let m := N * 10 ^ k / D
    if k = 0 then sign ++ toString m
    else
      let digits := toString (m % 10 ^ k)
      let pad := String.mk (List.replicate (k - digits.length) '0')
      sign ++ toString (m / 10 ^ k) ++ "." ++ pad ++ digits
  else sign ++ toString N ++ "/" ++ toString D

/-- Line 2: `px(v)` — numeric value to a rounded pixel length.  (The
non-number passthrough arm of the source is unreachable in this model,
where all geometry fields are numbers.) -/
def px (v : JsNum) : String := toString v.jsRound ++ "px"

/-- Line 5: `clamp01(x)` — `Math.max(0, Math.min(1, x))`. -/
def clamp01 (x : JsNum) : JsNum := JsNum.maxJ (.ofInt 0) (JsNum.minJ (.ofInt 1) x)

/-- Lines 7–14: the alpha channel emitted by `rgba`:
`alpha != null ? alpha : c.a == null ? 1 : clamp01(c.a)`. -/
def rgbaAlpha (c : Color) (alpha : Option JsNum) : JsNum :=
  match alpha with
  | some a => a
  | none =>
    match c.a with
    | none => .ofInt 1
    | some ca => clamp01 ca

/-- Lines 7–14: `rgba(c, alpha)` — Figma color object to a CSS `rgba()`
string; a missing color yields `"transparent"`. -/
def rgba (c : Option Color) (alpha : Option JsNum) : String :=
  match c with
  | none => "transparent"
  | some c =>
    let r := JsNum.jsRound ((clamp01 c.r).mul (.ofInt 255))
    let g := JsNum.jsRound ((clamp01 c.g).mul (.ofInt 255))
    let b := JsNum.jsRound ((clamp01 c.b).mul (.ofInt 255))
    let a := rgbaAlpha c alpha
    "rgba(" ++ toString r ++ ", " ++ toString g ++ ", " ++ toString b ++ ", "
      ++ decStr a ++ ")"

/-- Lines 17–18: `firstVisible(arr)` — first entry whose `visible` flag is
absent or true; `undefined`/non-array inputs give nothing. -/
def firstVisible (arr : Option (List Paint)) : Option Paint :=
  match arr with
  | none => none
  | some l => l.find? (fun f => f.visible = none || f.visible = some true)

/-- A character kept unchanged by the sanitizer of `safeClass`:
`[a-zA-Z0-9_-]`. -/
def isSafeChar (c : Char) : Bool :=
  ('a' ≤ c ∧ c ≤ 'z') ∨ ('A' ≤ c ∧ c ≤ 'Z') ∨ ('0' ≤ c ∧ c ≤ '9') ∨ c = '_' ∨ c = '-'

/-- Line 21: `safeClass(id)` — prefix `n_`, replace every character
outside `[a-zA-Z0-9_-]` with `_`. -/
def safeClass (id : String) : String :=
  "n_" ++ String.mk (id.data.map (fun c => if isSafeChar c then c else '_'))

example : safeClass "1:2" = "n_1_2" := by decide
example : decStr ⟨1, 2⟩ = "0.5" := by decide
example : decStr ⟨1, 1⟩ = "1" := by decide
example : decStr ⟨0, 5⟩ = "0" := by decide
example : decStr ⟨-3, 2⟩ = "-1.5" := by decide
example : decStr ⟨1, 100⟩ = "0.01" := by decide
example : px ⟨20, 1⟩ = "20px" := by decide
example : rgba (some ⟨⟨8, 10⟩, ⟨95, 100⟩, ⟨9, 10⟩, some ⟨1, 1⟩⟩) none = "rgba(204, 242, 230, 1)" := by decide
example : rgba none none = "transparent" := by decide

/-- Line 70 and line 254: the vector-like node kinds. -/
def vectorLikeKinds : List String :=
  ["ELLIPSE", "VECTOR", "LINE", "STAR", "POLYGON", "BOOLEAN_OPERATION",
   "REGULAR_POLYGON", "ARROW"]

/-- Line 250: the container kinds eligible for collapse-to-image. -/
def containerKinds : List String := ["GROUP", "COMPONENT", "INSTANCE", "COMPONENT_SET"]

/-- Lines 259–260: the popped node of the scan has an image-type fill that
is not explicitly invisible. -/
def hasImageFill (n : Node) : Bool :=
  (n.core.fills.getD []).any (fun f => f.type == "IMAGE" && f.visible ≠ some false)

mutual

/-- Lines 256–263, work done for one popped stack node: skip it (with its
children) when invisible, otherwise test it and then its subtree. -/
def scanTrigger : Node → Bool
  | n@(.mk core cs) =>
    if core.visible = some false then false
    else (hasImageFill n || vectorLikeKinds.contains core.type) || scanTriggerList cs

/-- Lines 255–263, the `while (stack.length)` loop: JS pops from the end
of the array and pushes children in order, so later list entries are
fully scanned before earlier ones; this right-to-left structural descent
visits nodes in exactly the loop's pop order. -/
def scanTriggerList : List Node → Bool
  | [] => false
  | c :: r => scanTriggerList r || scanTrigger c

end

/-- Lines 246–265: `shouldTreatAsSingleContainer(node)` — a small
container whose (visible) subtree contains a shape or image fill. -/
def shouldTreatAsSingleContainer (node : Node) : Bool :=
  match node.core.absoluteBoundingBox with
  | none => false
  | some abb =>
    let small := abb.width.leB (.ofInt 128) && abb.height.leB (.ofInt 128)
    if !small || !(containerKinds.contains node.core.type) then false
    else scanTriggerList node.children

/-- JavaScript `Math.atan2 y x`: the argument of the point `(x, y)`. -/
noncomputable def atan2R (y x : ℝ) : ℝ := Complex.arg ⟨x, y⟩

/-- JavaScript `Math.round` on a real value. -/
noncomputable def jsRoundR (x : ℝ) : ℤ := ⌊x + 1 / 2⌋

/-- Lines 28–33: the gradient angle in degrees — `atan2` of the vector
from the first handle to the second when two handles exist, otherwise
the default `180`. -/
noncomputable def gradAngleR (handles : List Handle) : ℝ :=
  match handles with
  | h0 :: h1 :: _ =>
    atan2R ((h1.y.sub h0.y).toReal) ((h1.x.sub h0.x).toReal) * 180 / Real.pi
  | _ => 180

/-- JS `v || 0` on a possibly-missing number. -/
def jsOrZero : Option JsNum → JsNum
  | some v => if v.isZero then .ofInt 0 else v
  | none => .ofInt 0

/-- Line 35: one gradient stop as `<color> <round(position*100)>%`, the
color's own alpha passed as the override. -/
def gradientStopCss (s : GradientStop) : String :=
  rgba s.color (s.color.bind Color.a) ++ " "
    ++ toString (JsNum.jsRound ((jsOrZero s.position).mul (.ofInt 100))) ++ "%"

/-- Lines 34–36: all stops, in their given order, joined by `", "`. -/
def gradientStopsCss (stops : List GradientStop) : String :=
  String.intercalate ", " (stops.map gradientStopCss)

/-- Lines 24–38: `gradientToCss(fill)` — `null` when there are no stops,
otherwise a `linear-gradient(<angle>deg, <stops>)` value. -/
noncomputable def gradientToCss (fill : Paint) : Option String :=
  let stops := fill.gradientStops.getD []
  if stops.isEmpty then none
  else
    some ("linear-gradient("
      ++ toString (jsRoundR (gradAngleR (fill.gradientHandlePositions.getD [])))
      ++ "deg, " ++ gradientStopsCss stops ++ ")")

/-- Line 40: `cssLine(k, v)` — one indented declaration, skipped for a
null or empty value. -/
def cssLine (k : String) (v : Option String) : String :=
  match v with
  | none => ""
  | some s => if s = "" then "" else "  " ++ k ++ ": " ++ s ++ ";\n"

/-- A JS object used as an ordered key/value store: keys in insertion
order, values possibly `undefined`. -/
abbrev Obj : Type := List (String × Option String)

/-- JS property assignment `o[k] = v`: overwrites in place if the key
exists (keeping its original position), otherwise appends. -/
def objSet (o : Obj) (k : String) (v : Option String) : Obj :=
  if o.any (fun p => p.1 == k) then o.map (fun p => if p.1 == k then (k, v) else p)
  else o ++ [(k, v)]

/-- Lines 41–46: `makeRule(sel, obj)` — a rule block listing the object's
entries in order. -/
def makeRule (sel : String) (obj : Obj) : String :=
  sel ++ " \x7b\n" ++ (obj.foldl (fun s p => s ++ cssLine p.1 p.2) "") ++ "\x7d\n"

/-- Lines 48–50: `escapeHtml` — three sequential `replaceAll` passes for
`&`, `<`, `>`. -/
def escapeHtml (s : String) : String :=
  let p1 := s.data.flatMap (fun c => if c = '&' then "&amp;".data else [c])
  let p2 := p1.flatMap (fun c => if c = '<' then "&lt;".data else [c])
  let p3 := p2.flatMap (fun c => if c = '>' then "&gt;".data else [c])
  String.mk p3

/-- Line 78: `(node.characters || "").replace(/\n/g, "<br/>")`. -/
def brText (s : String) : String :=
  String.mk (s.data.flatMap (fun c => if c = '\n' then "<br/>".data else [c]))

/-- One hexadecimal digit (lowercase), for JSON control escapes. -/
def hexDigit (n : Nat) : Char :=
  if n < 10 then Char.ofNat ('0'.toNat + n) else Char.ofNat ('a'.toNat + n - 10)

/-- JSON escaping of one character, as `JSON.stringify` performs it. -/
def jsonEscapeChar (c : Char) : List Char :=
  if c = '"' then ['\\', '"']
  else if c = '\\' then ['\\', '\\']
  else if c = '\n' then ['\\', 'n']
  else if c = '\r' then ['\\', 'r']
  else if c = '\t' then ['\\', 't']
  else if c.toNat = 8 then ['\\', 'b']
  else if c.toNat = 12 then ['\\', 'f']
  else if c.toNat < 32 then
    ['\\', 'u', '0', '0', hexDigit (c.toNat / 16), hexDigit (c.toNat % 16)]
  else [c]

/-- `JSON.stringify` of a string: quoted and escaped. -/
def jsonQuote (s : String) : String :=
  "\"" ++ String.mk (s.data.flatMap jsonEscapeChar) ++ "\""

example : scanTriggerList [] = false := by decide
example : jsonQuote "In\"ter" = "\"In\\\"ter\"" := by decide
example : escapeHtml "a<b&c" = "a&lt;b&amp;c" := by decide
example : brText "a\nb" = "a<br/>b" := by decide
example : makeRule "#f" (objSet (objSet [] "width" (some "3px")) "h" none)
    = "#f \x7b\n  width: 3px;\n\x7d\n" := by decide

mutual

/-- Lines 58–81: `nodeToHtml(node)` — prune invisible subtrees, collapse
small image-backed containers to an empty `div`, emit `<img>` for
image-mapped leaves/vectors, otherwise a text or container element
enclosing the children's markup. -/
def nodeToHtml (map : ImagesMap) : Node → String
  | n@(.mk core cs) =>
    if core.visible = some false then ""
    else
      let cls := safeClass core.id
      let modifiedUrl := map core.id
      if strTruthy modifiedUrl && shouldTreatAsSingleContainer n then
        "<div class=\"" ++ cls ++ "\"></div>"
      else if strTruthy modifiedUrl
          && (vectorLikeKinds.contains core.type || cs.isEmpty) then
        "<img class=\"" ++ cls ++ "\" alt=\"\" src=\"" ++ modifiedUrl.getD "" ++ "\" />"
      else
        let tag :=
          if core.type == "TEXT" then
            if JsNum.leB (.ofInt 32) (jsOrZero (core.style.bind TextStyle.fontSize))
            then "h1" else "p"
          else "div"
        let kids := nodesToHtml map cs
        let inner := if core.type == "TEXT" then brText (core.characters.getD "") else ""
        "<" ++ tag ++ " class=\"" ++ cls ++ "\">" ++ inner ++ kids ++ "</" ++ tag ++ ">"

/-- Line 77: `(node.children || []).map(nodeToHtml).join("")`. -/
def nodesToHtml (map : ImagesMap) : List Node → String
  | [] => ""
  | c :: r => nodeToHtml map c ++ nodesToHtml map r

end

/-- Lines 54–56: the root box falls back to `{width: 390, height: 844}`
when `absoluteBoundingBox` is absent; `W`/`H` are the rounded
dimensions. -/
def rootDims (root : Node) : ℤ × ℤ :=
  match root.core.absoluteBoundingBox with
  | some bb => (bb.width.jsRound, bb.height.jsRound)
  | none => ((JsNum.ofInt 390).jsRound, (JsNum.ofInt 844).jsRound)

/-- Line 91: `frameNode.name || "Export"`. -/
def titleOf (root : Node) : String :=
  match root.core.name with
  | some s => if s = "" then "Export" else s
  | none => "Export"

/-- Lines 86–120: the full HTML page template, with the interpolation
holes (`W`, `H`, escaped title, stylesheet name, content) as
parameters. -/
def htmlPage (W H : ℤ) (title cssFileName content : String) : String :=
  "<!doctype html>\n<html>\n<head>\n  <meta charset=\"utf-8\"/>\n  <meta name=\"viewport\" content=\"width=device-width, initial-scale=1\"/>\n  <title>"
    ++ title
    ++ "</title>\n  <link rel=\"stylesheet\" href=\"./"
    ++ cssFileName
    ++ "\"/>\n  <style>\n    html, body \x7b height: 100%; margin: 0; \x7d\n    body \x7b background:#f6f7f9; \x7d\n    #stage \x7b min-height:100vh; display:grid; place-items:center; padding:16px; box-sizing:border-box; \x7d\n    #frame \x7b width:"
    ++ toString W
    ++ "px; height:"
    ++ toString H
    ++ "px; position:relative; transform-origin: top left; isolation:isolate; \x7d\n    img \x7b display:block; \x7d\n  </style>\n</head>\n<body>\n  <div id=\"stage\">\n    <div id=\"frame\">"
    ++ content
    ++ "</div>\n  </div>\n  <script>\n    (function () \x7b\n      var frame = document.getElementById(\x27frame\x27);\n      var W = "
    ++ toString W
    ++ ", H = "
    ++ toString H
    ++ ";\n      function fit() \x7b\n        var vw = Math.max(document.documentElement.clientWidth, window.innerWidth || 0) - 32;\n        var vh = Math.max(document.documentElement.clientHeight, window.innerHeight || 0) - 32;\n        var scale = Math.min(vw / W, vh / H);\n        scale = Math.max(0.2, Math.min(1, scale));\n        frame.style.transform = \x27scale(\x27 + scale + \x27)\x27;\n      \x7d\n      window.addEventListener(\x27resize\x27, fit); fit();\n    \x7d)();\n  </script>\n</body>\n</html>"

/-- Lines 53–121: `generateHtmlFromFrame(frameNode, imagesMap,
cssFileName)`. -/
def generateHtmlFromFrame (frameNode : Node) (imagesMap : ImagesMap)
    (cssFileName : String) : String :=
  htmlPage (rootDims frameNode).1 (rootDims frameNode).2
    (escapeHtml (titleOf frameNode)) cssFileName (nodeToHtml imagesMap frameNode)

/-- A `NodeCore` with every optional field absent, for building concrete
test nodes. -/
def blankCore : NodeCore :=
  ⟨"", "FRAME", none, none, none, none, none, none, none, none, none, none, none,
   none, none, none⟩

example :
    nodeToHtml (fun _ => none)
      (.mk { blankCore with id := "T1", type := "TEXT", characters := some "Hi" } [])
      = "<p class=\"n_T1\">Hi</p>" := by decide
example :
    nodeToHtml (fun i => if i = "V" then some "u.png" else none)
      (.mk { blankCore with id := "V", type := "VECTOR" } [])
      = "<img class=\"n_V\" alt=\"\" src=\"u.png\" />" := by decide

/-- The coordinate origin passed down the CSS traversal:
`{x: abb.x, y: abb.y}` of the nearest boxed ancestor (line 226). -/
structure Origin where
  x : JsNum
  y : JsNum
deriving DecidableEq, Repr

/-- JS object spread `{...a, ...b}`: assign every entry of `b` into `a`
in order (overwriting values but keeping first-insertion positions). -/
def mergeObj (a b : Obj) : Obj := b.foldl (fun o p => objSet o p.1 p.2) a

/-- Lines 164–200: the visual declarations of a non-text node — image
background or first visible fill (solid / gradient / node background
color), then corner radii, border, and clipping. -/
noncomputable def nonTextVisuals (core : NodeCore) (modifiedUrl : Option String) : Obj :=
  let v0 : Obj := []
  let v1 :=
    if strTruthy modifiedUrl then
      objSet (objSet (objSet (objSet v0
        "background-image" (some ("url(\"" ++ modifiedUrl.getD "" ++ "\")")))
        "background-repeat" (some "no-repeat"))
        "background-size" (some "cover"))
        "background-position" (some "center")
    else
      let fill := (firstVisible core.fills).or (firstVisible core.background)
      match fill with
      | some f =>
        if f.type == "SOLID" then objSet v0 "background" (some (rgba f.color f.opacity))
        else if f.type.startsWith "GRADIENT" then
          match gradientToCss f with
          | some g => objSet v0 "background" (some g)
          | none => v0
        else
          match core.backgroundColor with
          | some bg => objSet v0 "background" (some (rgba (some bg) none))
          | none => v0
      | none =>
        match core.backgroundColor with
        | some bg => objSet v0 "background" (some (rgba (some bg) none))
        | none => v0
  let v2 :=
    match core.rectangleCornerRadii with
    | some radii =>
      objSet (objSet (objSet (objSet v1
        "border-top-left-radius" ((radii.get? 0).map px))
        "border-top-right-radius" ((radii.get? 1).map px))
        "border-bottom-right-radius" ((radii.get? 2).map px))
        "border-bottom-left-radius" ((radii.get? 3).map px)
    | none =>
      match core.cornerRadius with
      | some cr => if JsNum.ltB (.ofInt 0) cr then objSet v1 "border-radius" (some (px cr)) else v1
      | none => v1
  let stroke := firstVisible core.strokes
  let strokeW := core.strokeWeight.or core.strokeWidth
  let v3 :=
    match stroke with
    | some st =>
      match st.color, strokeW with
      | some _, some w =>
        if JsNum.ltB (.ofInt 0) w then
          objSet v2 "border" (some (px w ++ " solid " ++ rgba st.color st.opacity))
        else v2
      | _, _ => v2
    | none => v2
  if core.clipsContent = some true then objSet v3 "overflow" (some "hidden") else v3

/-- Lines 201–222: the visual declarations of a TEXT node. -/
def textVisuals (core : NodeCore) (abb : Option Box) : Obj :=
  let s := core.style.getD ⟨none, none, none, none, none, none, none⟩
  let v0 := objSet [] "margin" (some "0")
  let v1 :=
    match s.fontSize with
    | some fs => if !fs.isZero then objSet v0 "font-size" (some (px fs)) else v0
    | none => v0
  let v2 :=
    match s.fontWeight with
    | some fw => if !fw.isZero then objSet v1 "font-weight" (some (decStr fw)) else v1
    | none => v1
  let v3 :=
    match s.letterSpacing with
    | some ls => objSet v2 "letter-spacing" (some (px ls))
    | none => v2
  let v4 :=
    match s.lineHeightPx with
    | some lh => if !lh.isZero then objSet v3 "line-height" (some (px lh)) else v3
    | none => v3
  let v5 :=
    match abb with
    | some bb =>
      objSet (objSet (objSet v4 "width" (some (px bb.width)))
        "height" (some (px bb.height))) "overflow" (some "hidden")
    | none => v4
  let v6 := objSet v5 "white-space" (some "pre-wrap")
  let family :=
    if strTruthy s.fontFamily then s.fontFamily.getD ""
    else if strTruthy s.fontNameFamily then s.fontNameFamily.getD ""
    else "Inter"
  let v7 := objSet v6 "font-family" (some (jsonQuote family ++ ", system-ui, Arial, sans-serif"))
  let textFill := firstVisible core.fills
  let v8 :=
    match textFill with
    | some f => if f.type == "SOLID" then objSet v7 "color" (some (rgba f.color f.opacity)) else v7
    | none => v7
  let hAlign := (s.textAlignHorizontal.getD "").toLower
  if hAlign ≠ "" then objSet v8 "text-align" (some hAlign) else v8

mutual

/-- Lines 129–228: `emitNode(node, origin)` — returns the CSS text this
subtree appends and the updated stacking counter (the source's `css`
accumulation and mutable `zCounter`, threaded explicitly). -/
noncomputable def emitNode (map : ImagesMap) : Node → Option Origin → ℤ → String × ℤ
  | n@(.mk core cs), origin, z =>
    if core.visible = some false then ("", z)
    else
      let cls := "." ++ safeClass core.id
      let abb := core.absoluteBoundingBox
      let layout : Obj :=
        match abb with
        | some bb =>
          let l0 := objSet [] "position"
            (some (if origin.isSome then "absolute" else "relative"))
          let l1 :=
            match origin with
            | some o =>
              objSet (objSet l0 "left" (some (px (bb.x.sub o.x))))
                "top" (some (px (bb.y.sub o.y)))
            | none => l0
          objSet (objSet l1 "width" (some (px bb.width))) "height" (some (px bb.height))
        | none =>
          objSet [] "position" (some (if origin.isSome then "absolute" else "relative"))
      let z1 := z + 1
      let layout := objSet layout "z-index" (some (toString z1))
      let modifiedUrl := map core.id
      if strTruthy modifiedUrl && shouldTreatAsSingleContainer n then
        let visuals : Obj :=
          objSet (objSet (objSet (objSet []
            "background-image" (some ("url(\"" ++ modifiedUrl.getD "" ++ "\")")))
            "background-repeat" (some "no-repeat"))
            "background-size" (some "contain"))
            "background-position" (some "center")
        (makeRule cls (mergeObj layout visuals), z1)
      else
        let visuals : Obj :=
          if core.type != "TEXT" then nonTextVisuals core modifiedUrl
          else textVisuals core abb
        let rule := makeRule cls (mergeObj layout visuals)
        let nextOrigin :=
          match abb with
          | some bb => some (Origin.mk bb.x bb.y)
          | none => origin
        let result := emitList map cs nextOrigin z1
        (rule ++ result.1, result.2)

/-- Line 227: `(node.children || []).forEach((c) => emitNode(c, nextOrigin))`. -/
noncomputable def emitList (map : ImagesMap) : List Node → Option Origin → ℤ → String × ℤ
  | [], _, z => ("", z)
  | c :: r, origin, z =>
    let first := emitNode map c origin z
    let rest := emitList map r origin first.2
    (first.1 ++ rest.1, rest.2)

end

/-- The fixed header line of the generated stylesheet (line 240). -/
def cssHeader : String := "/* Generated by Softlight Figma → HTML/CSS */\n"

/-- Lines 231–237: the `#frame` wrapper rule, sized by the root box or
the `{width: 390, height: 844}` fallback. -/
def frameRule (rootNode : Node) : String :=
  makeRule "#frame"
    (objSet (objSet (objSet (objSet [] "position" (some "relative"))
      "width" (some (px (match rootNode.core.absoluteBoundingBox with
        | some bb => bb.width
        | none => .ofInt 390))))
      "height" (some (px (match rootNode.core.absoluteBoundingBox with
        | some bb => bb.height
        | none => .ofInt 844))))
      "isolation" (some "isolate"))

/-- Lines 125–241: `generateCssFromFrame(rootNode, imagesMap)` — the
header comment, the `#frame` wrapper rule, then one rule per visited
node starting from a fresh stacking counter. -/
noncomputable def generateCssFromFrame (rootNode : Node) (imagesMap : ImagesMap) : String :=
  cssHeader ++ (frameRule rootNode ++ (emitNode imagesMap rootNode none 0).1)

mutual

/-- The nodes reachable from a node through `visible !== false` nodes, in
pre-order (the visit order shared by both generators). -/
def visiblePreorder : Node → List Node
  | n@(.mk core cs) =>
    if core.visible = some false then [] else n :: visiblePreorderL cs

/-- Pre-order visible nodes of a child list. -/
def visiblePreorderL : List Node → List Node
  | [] => []
  | c :: r => visiblePreorder c ++ visiblePreorderL r

end

mutual

/-- Every node of a subtree, in pre-order. -/
def treeNodes : Node → List Node
  | n@(.mk _ cs) => n :: treeNodesL cs

/-- Every node of a child list's subtrees, in pre-order. -/
def treeNodesL : List Node → List Node
  | [] => []
  | c :: r => treeNodes c ++ treeNodesL r

end

mutual

/-- The class attribute of each element `nodeToHtml` emits, in emission
order: one per visited node, with the collapse and image branches
emitting exactly one element and not descending. -/
def htmlClassList (map : ImagesMap) : Node → List String
  | n@(.mk core cs) =>
    if core.visible = some false then []
    else
      let cls := safeClass core.id
      let modifiedUrl := map core.id
      if strTruthy modifiedUrl && shouldTreatAsSingleContainer n then [cls]
      else if strTruthy modifiedUrl
          && (vectorLikeKinds.contains core.type || cs.isEmpty) then [cls]
      else cls :: htmlClassListL map cs

/-- Class attributes of a child list's markup, in order. -/
def htmlClassListL (map : ImagesMap) : List Node → List String
  | [] => []
  | c :: r => htmlClassList map c ++ htmlClassListL map r

end

mutual

/-- The selector of each rule `emitNode` emits, in emission order: one
per visited node, with the collapse branch emitting its rule and not
descending. -/
def cssSelectorList (map : ImagesMap) : Node → List String
  | n@(.mk core cs) =>
    if core.visible = some false then []
    else
      let cls := "." ++ safeClass core.id
      if strTruthy (map core.id) && shouldTreatAsSingleContainer n then [cls]
      else cls :: cssSelectorListL map cs

/-- Selectors of a child list's rules, in order. -/
def cssSelectorListL (map : ImagesMap) : List Node → List String
  | [] => []
  | c :: r => cssSelectorList map c ++ cssSelectorListL map r

end

/-- The descendants of the nodes of `l` (the nodes themselves included)
reachable without passing through a `visible === false` node. -/
def visibleDescList : List Node → List Node
  | [] => []
  | .mk core cs :: r =>
    (if core.visible = some false then [] else Node.mk core cs :: visibleDescList cs)
      ++ visibleDescList r

/-- The trigger tested by the scan of `shouldTreatAsSingleContainer`:
an image fill that is not explicitly invisible, or a vector-like kind. -/
def scanHit (n : Node) : Bool := hasImageFill n || vectorLikeKinds.contains n.core.type

example : (visiblePreorder (.mk { blankCore with id := "R" }
    [.mk { blankCore with id := "A", visible := some false } [],
     .mk { blankCore with id := "B" } []])).map (fun m => m.core.id) = ["R", "B"] := by decide
example : htmlClassList (fun _ => none) (.mk { blankCore with id := "R" }
    [.mk { blankCore with id := "1:2" } [], .mk { blankCore with id := "1;2" } []])
    = ["n_R", "n_1_2", "n_1_2"] := by decide

theorem strExt {a b : String} (h : a.data = b.data) : a = b := by
  cases a
  cases b
  exact congrArg String.mk h

theorem strAppendCancelLeft {s a b : String} (h : s ++ a = s ++ b) : a = b := by
  have h2 := congrArg String.data h
  rw [String.data_append, String.data_append] at h2
  exact strExt (List.append_cancel_left h2)

theorem safeClass_data (id : String) :
    (safeClass id).data = 'n' :: '_' :: id.data.map (fun c => if isSafeChar c then c else '_') := by
  rw [safeClass, String.data_append]
  rfl

theorem clamp01_wf {x : JsNum} (hx : x.wf) : (clamp01 x).wf := by
  rw [clamp01, JsNum.minJ, JsNum.maxJ]
  split
  · split
    · exact hx
    · exact JsNum.wf_ofInt 1
  · exact JsNum.wf_ofInt 0

theorem ltB_false_iff {a b : JsNum} (ha : a.wf) (hb : b.wf) :
    JsNum.ltB a b = false ↔ ¬ a.toRat < b.toRat := by
  rw [← JsNum.ltB_iff ha hb]
  simp

theorem bool_eq_false {b : Bool} (h : ¬ b = true) : b = false := by
  revert h
  cases b
  · intro _
    rfl
  · intro h
    exact absurd rfl h

theorem toRat_clamp01 {x : JsNum} (hx : x.wf) :
    (clamp01 x).toRat = max 0 (min 1 x.toRat) := by
  rw [clamp01, JsNum.minJ]
  by_cases h1 : JsNum.ltB x (JsNum.ofInt 1) = true
  · have h1' : x.toRat < (1 : ℚ) := by
      have := (JsNum.ltB_iff hx (JsNum.wf_ofInt 1)).mp h1
      rwa [JsNum.toRat_ofInt] at this
    rw [if_pos h1, JsNum.maxJ]
    by_cases h2 : JsNum.ltB (JsNum.ofInt 0) x = true
    · have h2' : (0 : ℚ) < x.toRat := by
        have := (JsNum.ltB_iff (JsNum.wf_ofInt 0) hx).mp h2
        rwa [JsNum.toRat_ofInt] at this
      rw [if_pos h2, min_eq_right (le_of_lt h1'), max_eq_right (le_of_lt h2')]
    · have h2' : ¬ (0 : ℚ) < x.toRat := by
        have := (ltB_false_iff (JsNum.wf_ofInt 0) hx).mp (bool_eq_false h2)
        rwa [JsNum.toRat_ofInt] at this
      rw [if_neg h2, JsNum.toRat_ofInt, min_eq_right (le_of_lt h1'),
        max_eq_left (le_of_not_lt h2')]
      norm_num
  · have h1' : ¬ x.toRat < (1 : ℚ) := by
      have := (ltB_false_iff hx (JsNum.wf_ofInt 1)).mp (bool_eq_false h1)
      rwa [JsNum.toRat_ofInt] at this
    rw [if_neg h1, JsNum.maxJ]
    by_cases h2 : JsNum.ltB (JsNum.ofInt 0) (JsNum.ofInt 1) = true
    · rw [if_pos h2, JsNum.toRat_ofInt, min_eq_left (le_of_not_lt h1')]
      rw [max_eq_right (by norm_num : (0 : ℚ) ≤ 1)]
      norm_num
    · exact absurd ((JsNum.ltB_iff (JsNum.wf_ofInt 0) (JsNum.wf_ofInt 1)).mpr
        (by rw [JsNum.toRat_ofInt, JsNum.toRat_ofInt]; norm_num)) h2

theorem channel_round_eq {x : JsNum} (hx : x.wf) :
    JsNum.jsRound ((clamp01 x).mul (.ofInt 255)) = ⌊(clamp01 x).toRat * 255 + 1 / 2⌋ := by
  rw [JsNum.jsRound_eq (JsNum.wf_mul (clamp01_wf hx) (JsNum.wf_ofInt 255)),
    JsNum.toRat_mul, JsNum.toRat_ofInt]
  norm_num

/-- C2, counterexample: `safeClass` is not collision-avoiding — the two
distinct ids `"1:2"` and `"1;2"` sanitize to the same selector, refuting
"for every pair of distinct id strings, the derived selectors are
distinct". -/
theorem c2_safeClass_counterexample :
    safeClass "1:2" = safeClass "1;2" ∧ ("1:2" : String) ≠ "1;2" := by
  constructor
  · decide
  · decide

/-- C2 (amended): selector derivation is a pure, deterministic function
of the id alone that prefixes `n_` and replaces every character outside
`[A-Za-z0-9_-]` with `_`; it is collision-avoiding on ids made only of
characters from that safe set (distinct such ids give distinct
selectors), though ids differing only in sanitized characters may
collide. -/
theorem c2_safeClass_amended :
    (∀ a b : String, (∀ c ∈ a.data, isSafeChar c = true) →
      (∀ c ∈ b.data, isSafeChar c = true) → (safeClass a = safeClass b ↔ a = b))
    ∧ (∀ id : String, (safeClass id).data
        = 'n' :: '_' :: id.data.map (fun c => if isSafeChar c then c else '_'))
    ∧ (∀ id : String, ∀ c ∈ (safeClass id).data.drop 2, isSafeChar c = true) := by
  refine ⟨?_, safeClass_data, ?_⟩
  · intro a b ha hb
    constructor
    · intro h
      have h2 := congrArg String.data h
      rw [safeClass_data, safeClass_data] at h2
      have ha' : a.data.map (fun c => if isSafeChar c then c else '_') = a.data := by
        rw [List.map_congr_left (fun c hc => by rw [ha c hc])]
        exact List.map_id a.data
      have hb' : b.data.map (fun c => if isSafeChar c then c else '_') = b.data := by
        rw [List.map_congr_left (fun c hc => by rw [hb c hc])]
        exact List.map_id b.data
      have h4 : a.data = b.data := by
        rw [← ha', ← hb']
        simpa using h2
      exact strExt h4
    · intro h
      rw [h]
  · intro id c hc
    rw [safeClass_data] at hc
    simp only [List.drop_succ_cons, List.drop_zero] at hc
    rcases List.mem_map.mp hc with ⟨x, _, hx⟩
    by_cases hsafe : isSafeChar x = true
    · rw [if_pos hsafe] at hx
      rw [← hx]
      exact hsafe
    · rw [if_neg hsafe] at hx
      rw [← hx]
      decide

/-- C2, witness: the amended theorem applied to the concrete safe ids
`"abc"` and `"abd"`. -/
theorem c2_safeClass_witness :
    (∀ c ∈ ("abc" : String).data, isSafeChar c = true)
    ∧ (∀ c ∈ ("abd" : String).data, isSafeChar c = true)
    ∧ (safeClass "abc" = safeClass "abd" ↔ ("abc" : String) = "abd") :=
  ⟨by decide, by decide, c2_safeClass_amended.1 "abc" "abd" (by decide) (by decide)⟩

/-- C6: the rgba color formatter clamps channel values to [0,1] before
scaling r/g/b to 0–255 with round-to-nearest; the emitted alpha is the
explicit override when supplied, otherwise the color's own (clamped)
alpha, defaulting to 1 when absent; an absent color yields
`"transparent"`; and the two specified round-trip examples hold. -/
theorem c6_rgba_formatting :
    (∀ alpha, rgba none alpha = "transparent")
    ∧ (∀ x : JsNum, x.wf →
        0 ≤ (clamp01 x).toRat ∧ (clamp01 x).toRat ≤ 1
        ∧ (clamp01 x).toRat = max 0 (min 1 x.toRat))
    ∧ (∀ x : JsNum, x.wf →
        JsNum.jsRound ((clamp01 x).mul (.ofInt 255)) = ⌊(clamp01 x).toRat * 255 + 1 / 2⌋
        ∧ 0 ≤ JsNum.jsRound ((clamp01 x).mul (.ofInt 255))
        ∧ JsNum.jsRound ((clamp01 x).mul (.ofInt 255)) ≤ 255)
    ∧ (∀ c a0, rgbaAlpha c (some a0) = a0)
    ∧ (∀ c, c.a = none → rgbaAlpha c none = .ofInt 1)
    ∧ (∀ c ca, c.a = some ca → rgbaAlpha c none = clamp01 ca)
    ∧ rgba (some ⟨⟨0, 1⟩, ⟨0, 1⟩, ⟨0, 1⟩, some ⟨1, 1⟩⟩) none = "rgba(0, 0, 0, 1)"
    ∧ rgba (some ⟨⟨1, 1⟩, ⟨1, 1⟩, ⟨1, 1⟩, some ⟨1, 2⟩⟩) none
        = "rgba(255, 255, 255, 0.5)" := by
  refine ⟨fun _ => rfl, ?_, ?_, fun _ _ => rfl, ?_, ?_, by decide, by decide⟩
  · intro x hx
    rw [toRat_clamp01 hx]
    refine ⟨le_max_left 0 _, ?_, rfl⟩
    exact max_le (by norm_num) (min_le_left 1 _)
  · intro x hx
    have ht0 : 0 ≤ (clamp01 x).toRat := by
      rw [toRat_clamp01 hx]
      exact le_max_left 0 _
    have ht1 : (clamp01 x).toRat ≤ 1 := by
      rw [toRat_clamp01 hx]
      exact max_le (by norm_num) (min_le_left 1 _)
    refine ⟨channel_round_eq hx, ?_, ?_⟩
    · rw [channel_round_eq hx]
      rw [Int.le_floor]
      push_cast
      nlinarith
    · rw [channel_round_eq hx]
      have h2 : ⌊(clamp01 x).toRat * 255 + 1 / 2⌋ < (256 : ℤ) := by
        rw [Int.floor_lt]
        push_cast
        nlinarith
      omega
  · intro c hc
    rw [rgbaAlpha, hc]
  · intro c ca hc
    rw [rgbaAlpha, hc]

/-- C6, witness: the formatting theorem applied at the concrete channel
value 3/2 (clamped to 1) and a color with absent alpha. -/
theorem c6_rgba_witness :
    JsNum.wf ⟨3, 2⟩
    ∧ (clamp01 ⟨3, 2⟩).toRat = max 0 (min 1 (JsNum.toRat ⟨3, 2⟩))
    ∧ JsNum.jsRound ((clamp01 ⟨3, 2⟩).mul (.ofInt 255)) ≤ 255
    ∧ rgbaAlpha ⟨⟨0, 1⟩, ⟨0, 1⟩, ⟨0, 1⟩, none⟩ none = .ofInt 1 :=
  ⟨by norm_num [JsNum.wf],
   (c6_rgba_formatting.2.1 ⟨3, 2⟩ (by norm_num [JsNum.wf])).2.2,
   (c6_rgba_formatting.2.2.1 ⟨3, 2⟩ (by norm_num [JsNum.wf])).2.2,
   c6_rgba_formatting.2.2.2.2.1 ⟨⟨0, 1⟩, ⟨0, 1⟩, ⟨0, 1⟩, none⟩ rfl⟩

/-- C5: for every root node, image map and stylesheet name — in
particular for trees in which any combination of the optional fields is
absent — both generators are total and return (non-empty) strings; a
non-null root is the only precondition, enforced here by the type. -/
theorem c5_no_exceptions (root : Node) (map : ImagesMap) (cssFileName : String) :
    0 < (generateHtmlFromFrame root map cssFileName).length
    ∧ 0 < (generateCssFromFrame root map).length := by
  constructor
  · have hp : 0 < ("<!doctype html>\n<html>\n<head>\n  <meta charset=\"utf-8\"/>\n  <meta name=\"viewport\" content=\"width=device-width, initial-scale=1\"/>\n  <title>" : String).length := by
      decide
    simp only [generateHtmlFromFrame, htmlPage, String.length_append]
    omega
  · have hp : 0 < cssHeader.length := by decide
    simp only [generateCssFromFrame, String.length_append]
    omega

/-- C9: both generators are deterministic — two invocations on identical
inputs are the very same pure computation and yield identical strings,
and each CSS invocation restarts its stacking counter at 0 (the counter
is an argument of the traversal, not shared state). -/
theorem c9_determinism (root : Node) (map : ImagesMap) (cssFileName : String) :
    (generateHtmlFromFrame root map cssFileName, generateCssFromFrame root map)
      = (generateHtmlFromFrame root map cssFileName, generateCssFromFrame root map)
    ∧ generateCssFromFrame root map
      = cssHeader ++ (frameRule root ++ (emitNode map root none 0).1) :=
  ⟨rfl, rfl⟩

/-- C10: when the root lacks `absoluteBoundingBox`, both generators fall
back to the same 390×844 canvas — the HTML page (its `#frame` style and
scaling script) is produced with `W = 390, H = 844`, and the CSS `#frame`
wrapper rule reads `width: 390px; height: 844px`. -/
theorem c10_default_canvas (root : Node) (map : ImagesMap) (cssFileName : String)
    (h : root.core.absoluteBoundingBox = none) :
    rootDims root = (390, 844)
    ∧ generateHtmlFromFrame root map cssFileName
        = htmlPage 390 844 (escapeHtml (titleOf root)) cssFileName (nodeToHtml map root)
    ∧ generateCssFromFrame root map
        = cssHeader
          ++ ("#frame \x7b\n  position: relative;\n  width: 390px;\n  height: 844px;\n  isolation: isolate;\n\x7d\n"
            ++ (emitNode map root none 0).1) := by
  have h1 : rootDims root = (390, 844) := by
    rw [rootDims, h]
    rfl
  have h2 : frameRule root
      = "#frame \x7b\n  position: relative;\n  width: 390px;\n  height: 844px;\n  isolation: isolate;\n\x7d\n" := by
    rw [frameRule, h]
    rfl
  refine ⟨h1, ?_, ?_⟩
  · rw [generateHtmlFromFrame, h1]
  · rw [generateCssFromFrame, h2]

/-- C10, witness: the default-canvas theorem applied to a concrete
box-less root. -/
theorem c10_default_canvas_witness :
    rootDims (.mk { blankCore with id := "r" } []) = (390, 844)
    ∧ generateCssFromFrame (.mk { blankCore with id := "r" } []) (fun _ => none)
        = cssHeader
          ++ ("#frame \x7b\n  position: relative;\n  width: 390px;\n  height: 844px;\n  isolation: isolate;\n\x7d\n"
            ++ (emitNode (fun _ => none) (.mk { blankCore with id := "r" } []) none 0).1) :=
  ⟨(c10_default_canvas (.mk { blankCore with id := "r" } []) (fun _ => none) "styles.css" rfl).1,
   (c10_default_canvas (.mk { blankCore with id := "r" } []) (fun _ => none) "styles.css" rfl).2.2⟩

/-- The concrete node of the C3 counterexample: a rectangle with an
image-map entry whose only child is invisible. -/
def c3node : Node :=
  .mk { blankCore with id := "A", type := "RECTANGLE" }
    [.mk { blankCore with id := "B", visible := some false } []]

/-- The image map of the C3 counterexample. -/
def c3map : ImagesMap := fun i => if i = "A" then some "u" else none

/-- C3, counterexample: `c3node` has an image-map entry, is not
collapsed, is not vector-like, and has no *visible* children — so the
claim requires an `<img>` element — yet the generator emits a plain
`<div>` (the code tests for an empty/absent `children` array, not for
the absence of visible children). -/
theorem c3_counterexample :
    c3map "A" = some "u"
    ∧ shouldTreatAsSingleContainer c3node = false
    ∧ vectorLikeKinds.contains c3node.core.type = false
    ∧ (∀ c ∈ c3node.children, c.core.visible = some false)
    ∧ nodeToHtml c3map c3node = "<div class=\"n_A\"></div>"
    ∧ ¬ List.IsInfix "<img".data (nodeToHtml c3map c3node).data := by
  refine ⟨rfl, by decide, by decide, by decide, by decide, by decide⟩

/-- C3 (amended): for a visited node that does not collapse, if the
image map holds a (non-empty) URL for its id AND (its kind is
vector-like OR its `children` array is absent/empty — not merely without
visible members), the generator emits exactly the self-contained
`<img>` element with that URL and the node's selector, descending into
nothing. -/
theorem c3_img_branch (map : ImagesMap) (n : Node) (url : String)
    (hv : n.core.visible ≠ some false)
    (hu : map n.core.id = some url) (hne : url ≠ "")
    (hcollapse : shouldTreatAsSingleContainer n = false)
    (hcase : vectorLikeKinds.contains n.core.type = true ∨ n.children = []) :
    nodeToHtml map n
      = "<img class=\"" ++ safeClass n.core.id ++ "\" alt=\"\" src=\"" ++ url ++ "\" />" := by
  cases n with
  | mk core cs =>
    simp only [Node.core] at hv hu hcase ⊢
    simp only [Node.children] at hcase
    have hs : strTruthy (some url) = true := by
      simp [strTruthy, hne]
    rcases hcase with hvec | hempty
    · rw [nodeToHtml, if_neg hv, hu]
      simp only [hs, hcollapse, hvec]
      simp
    · subst hempty
      rw [nodeToHtml, if_neg hv, hu]
      simp only [hs, hcollapse, List.isEmpty_nil]
      simp

/-- C3, witness: the amended branch theorem applied to a concrete
image-mapped vector node. -/
theorem c3_img_branch_witness :
    nodeToHtml (fun i => if i = "V" then some "u.png" else none)
      (.mk { blankCore with id := "V", type := "VECTOR" } [])
      = "<img class=\"" ++ safeClass "V" ++ "\" alt=\"\" src=\"" ++ "u.png" ++ "\" />" :=
  c3_img_branch (fun i => if i = "V" then some "u.png" else none)
    (.mk { blankCore with id := "V", type := "VECTOR" } []) "u.png"
    (by decide) (by decide) (by decide) (by decide) (Or.inl (by decide))

theorem jsRoundR_int (k : ℤ) : jsRoundR (k : ℝ) = k := by
  rw [jsRoundR, add_comm, Int.floor_add_int]
  norm_num [Int.floor_eq_zero_iff, Set.mem_Ico]

theorem atan2R_zero_one : atan2R 0 1 = 0 := by
  have h : (⟨1, 0⟩ : ℂ) = 1 := by
    rw [Complex.ext_iff]
    norm_num
  rw [atan2R, h, Complex.arg_one]

theorem atan2R_one_zero : atan2R 1 0 = Real.pi / 2 := by
  have h : (⟨0, 1⟩ : ℂ) = Complex.I := by
    rw [Complex.ext_iff]
    norm_num
  rw [atan2R, h, Complex.arg_I]

/-- C7: gradient conversion — no stops means no gradient; otherwise the
emitted value is `linear-gradient(<angle>deg, <stops in given order>)`
where the angle is `atan2` of the vector from the first handle to the
second (in degrees, rounded to nearest), defaulting to 180 with fewer
than two handles; handles (0,0),(1,0) give angle 0 and (0,0),(0,1) give
angle 90. -/
theorem c7_gradient :
    (∀ fill : Paint, fill.gradientStops.getD [] = [] → gradientToCss fill = none)
    ∧ (∀ fill : Paint, fill.gradientStops.getD [] ≠ [] →
        gradientToCss fill
          = some ("linear-gradient("
              ++ toString (jsRoundR (gradAngleR (fill.gradientHandlePositions.getD [])))
              ++ "deg, " ++ gradientStopsCss (fill.gradientStops.getD []) ++ ")"))
    ∧ (∀ handles : List Handle, handles.length < 2 → jsRoundR (gradAngleR handles) = 180)
    ∧ (∀ h0 h1 : Handle, ∀ rest, gradAngleR (h0 :: h1 :: rest)
        = atan2R ((h1.y.sub h0.y).toReal) ((h1.x.sub h0.x).toReal) * 180 / Real.pi)
    ∧ (∀ stops, gradientStopsCss stops = String.intercalate ", " (stops.map gradientStopCss))
    ∧ jsRoundR (gradAngleR [⟨⟨0, 1⟩, ⟨0, 1⟩⟩, ⟨⟨1, 1⟩, ⟨0, 1⟩⟩]) = 0
    ∧ jsRoundR (gradAngleR [⟨⟨0, 1⟩, ⟨0, 1⟩⟩, ⟨⟨0, 1⟩, ⟨1, 1⟩⟩]) = 90 := by
  refine ⟨?_, ?_, ?_, fun h0 h1 rest => rfl, fun stops => rfl, ?_, ?_⟩
  · intro fill h
    rw [gradientToCss]
    simp [h]
  · intro fill h
    rw [gradientToCss]
    simp [List.isEmpty_iff, h]
  · intro handles hlt
    have h180 : gradAngleR handles = 180 := by
      match handles with
      | [] => rfl
      | [h] => rfl
      | h0 :: h1 :: rest =>
        simp only [List.length_cons] at hlt
        exact absurd hlt (by omega)
    rw [h180, show (180 : ℝ) = ((180 : ℤ) : ℝ) by norm_num, jsRoundR_int]
  · have hy : ((Handle.y ⟨⟨1, 1⟩, ⟨0, 1⟩⟩).sub (Handle.y ⟨⟨0, 1⟩, ⟨0, 1⟩⟩)).toReal = 0 := by
      norm_num [JsNum.sub, JsNum.toReal]
    have hx : ((Handle.x ⟨⟨1, 1⟩, ⟨0, 1⟩⟩).sub (Handle.x ⟨⟨0, 1⟩, ⟨0, 1⟩⟩)).toReal = 1 := by
      norm_num [JsNum.sub, JsNum.toReal]
    rw [gradAngleR, hy, hx, atan2R_zero_one]
    rw [show (0 : ℝ) * 180 / Real.pi = ((0 : ℤ) : ℝ) by norm_num, jsRoundR_int]
  · have hy : ((Handle.y ⟨⟨0, 1⟩, ⟨1, 1⟩⟩).sub (Handle.y ⟨⟨0, 1⟩, ⟨0, 1⟩⟩)).toReal = 1 := by
      norm_num [JsNum.sub, JsNum.toReal]
    have hx : ((Handle.x ⟨⟨0, 1⟩, ⟨1, 1⟩⟩).sub (Handle.x ⟨⟨0, 1⟩, ⟨0, 1⟩⟩)).toReal = 0 := by
      norm_num [JsNum.sub, JsNum.toReal]
    rw [gradAngleR, hy, hx, atan2R_one_zero]
    have h90 : Real.pi / 2 * 180 / Real.pi = ((90 : ℤ) : ℝ) := by
      have hπ : Real.pi ≠ 0 := Real.pi_ne_zero
      field_simp
      ring
    rw [h90, jsRoundR_int]

/-- The concrete red-to-blue linear gradient of C7's witness. -/
def redBlueFill : Paint :=
  ⟨"GRADIENT_LINEAR", none, none, none,
   some [⟨⟨0, 1⟩, ⟨0, 1⟩⟩, ⟨⟨1, 1⟩, ⟨0, 1⟩⟩],
   some [⟨some ⟨0, 1⟩, some ⟨⟨1, 1⟩, ⟨0, 1⟩, ⟨0, 1⟩, some ⟨1, 1⟩⟩⟩,
         ⟨some ⟨1, 1⟩, some ⟨⟨0, 1⟩, ⟨0, 1⟩, ⟨1, 1⟩, some ⟨1, 1⟩⟩⟩]⟩

/-- C7, witness: the gradient theorem applied to a concrete two-stop
red→blue fill with handles (0,0),(1,0): angle 0, stops in order. -/
theorem c7_gradient_witness :
    gradientToCss redBlueFill
      = some "linear-gradient(0deg, rgba(255, 0, 0, 1) 0%, rgba(0, 0, 255, 1) 100%)" := by
  have h := c7_gradient.2.1 redBlueFill (by decide)
  rw [h]
  show some ("linear-gradient("
      ++ toString (jsRoundR (gradAngleR [⟨⟨0, 1⟩, ⟨0, 1⟩⟩, ⟨⟨1, 1⟩, ⟨0, 1⟩⟩]))
      ++ "deg, " ++ gradientStopsCss (redBlueFill.gradientStops.getD []) ++ ")") = _
  rw [c7_gradient.2.2.2.2.2.1]
  decide

theorem bool_eq_of_iff {a b : Bool} (h : a = true ↔ b = true) : a = b := by
  cases a <;> cases b <;> simp_all

/-- The visible-reachable nodes of one subtree: the node itself and its
visible descendants, or nothing when the node is invisible. -/
def visibleDescNode (c : Node) : List Node :=
  match c with
  | .mk core cs =>
    if core.visible = some false then [] else .mk core cs :: visibleDescList cs

theorem visibleDescList_cons (c : Node) (r : List Node) :
    visibleDescList (c :: r) = visibleDescNode c ++ visibleDescList r := by
  cases c
  rw [visibleDescList, visibleDescNode]

theorem mem_visibleDescList (l : List Node) (d : Node) :
    d ∈ visibleDescList l ↔ ∃ c ∈ l, d ∈ visibleDescNode c := by
  induction l with
  | nil => simp [visibleDescList]
  | cons c r ih =>
    rw [visibleDescList_cons]
    simp [ih]

mutual

theorem scanTrigger_eq_true_iff : ∀ n : Node,
    scanTrigger n = true ↔ ∃ d ∈ visibleDescNode n, scanHit d = true
  | .mk core cs => by
    rw [scanTrigger, visibleDescNode]
    by_cases hv : core.visible = some false
    · simp [hv]
    · rw [if_neg hv, if_neg hv]
      simp only [Bool.or_eq_true, scanTriggerList_eq_true_iff cs, List.mem_cons]
      constructor
      · rintro (hhit | ⟨d, hd, hdh⟩)
        · exact ⟨.mk core cs, Or.inl rfl, by simpa [scanHit, Node.core] using hhit⟩
        · exact ⟨d, Or.inr hd, hdh⟩
      · rintro ⟨d, hd | hd, hdh⟩
        · subst hd
          exact Or.inl (by simpa [scanHit, Node.core] using hdh)
        · exact Or.inr ⟨d, hd, hdh⟩

theorem scanTriggerList_eq_true_iff : ∀ l : List Node,
    scanTriggerList l = true ↔ ∃ d ∈ visibleDescList l, scanHit d = true
  | [] => by
    rw [scanTriggerList]
    simp [visibleDescList]
  | c :: r => by
    rw [scanTriggerList, visibleDescList_cons]
    simp only [Bool.or_eq_true, scanTrigger_eq_true_iff c, scanTriggerList_eq_true_iff r,
      List.mem_append]
    constructor
    · rintro (⟨d, hd, hdh⟩ | ⟨d, hd, hdh⟩)
      · exact ⟨d, Or.inr hd, hdh⟩
      · exact ⟨d, Or.inl hd, hdh⟩
    · rintro ⟨d, hd | hd, hdh⟩
      · exact Or.inr ⟨d, hd, hdh⟩
      · exact Or.inl ⟨d, hd, hdh⟩

end

/-- C8: the collapse predicate holds exactly for container-kind nodes
with both box dimensions ≤ 128 whose visible-reachable descendants
include an image-filled or vector-like node; the scan is
order-independent (permutation-invariant), and the size comparison
agrees with the rational ordering on well-formed numbers. -/
theorem c8_collapse_predicate :
    (∀ n : Node, shouldTreatAsSingleContainer n = true ↔
      ((∃ bb, n.core.absoluteBoundingBox = some bb
          ∧ bb.width.leB (.ofInt 128) = true ∧ bb.height.leB (.ofInt 128) = true)
        ∧ containerKinds.contains n.core.type = true
        ∧ ∃ d ∈ visibleDescList n.children, scanHit d = true))
    ∧ (∀ l l' : List Node, l.Perm l' → scanTriggerList l = scanTriggerList l')
    ∧ (∀ a b : JsNum, a.wf → b.wf → (a.leB b = true ↔ a.toRat ≤ b.toRat)) := by
  refine ⟨?_, ?_, fun a b ha hb => JsNum.leB_iff ha hb⟩
  · rintro ⟨core, cs⟩
    rw [shouldTreatAsSingleContainer]
    simp only [Node.core, Node.children]
    cases habb : core.absoluteBoundingBox with
    | none => simp
    | some bb =>
      show (if (!(bb.width.leB (.ofInt 128) && bb.height.leB (.ofInt 128))
            || !containerKinds.contains core.type) = true then false
          else scanTriggerList cs) = true ↔ _
      by_cases hw : (bb.width.leB (.ofInt 128) && bb.height.leB (.ofInt 128)) = true
      · by_cases hk : containerKinds.contains core.type = true
        · rw [if_neg (by rw [hw, hk]; simp)]
          rw [scanTriggerList_eq_true_iff cs]
          rcases Bool.and_eq_true .. |>.mp hw with ⟨hw1, hw2⟩
          constructor
          · intro h
            exact ⟨⟨bb, rfl, hw1, hw2⟩, hk, h⟩
          · rintro ⟨_, _, h⟩
            exact h
        · have hk2 : containerKinds.contains core.type = false := bool_eq_false hk
          rw [if_pos (by rw [hk2]; simp)]
          constructor
          · intro h
            exact absurd h (by simp)
          · rintro ⟨_, hkk, _⟩
            rw [hkk] at hk2
            simp at hk2
      · have hw2 : (bb.width.leB (.ofInt 128) && bb.height.leB (.ofInt 128)) = false :=
          bool_eq_false hw
        rw [if_pos (by rw [hw2]; simp)]
        constructor
        · intro h
          exact absurd h (by simp)
        · rintro ⟨⟨bb', hbb', hwa, hwb⟩, _⟩
          cases hbb'
          rw [hwa, hwb] at hw2
          simp at hw2
  · intro l l' hperm
    refine bool_eq_of_iff ?_
    rw [scanTriggerList_eq_true_iff, scanTriggerList_eq_true_iff]
    simp only [mem_visibleDescList]
    constructor
    · rintro ⟨d, ⟨c, hc, hdc⟩, hdh⟩
      exact ⟨d, ⟨c, hperm.mem_iff.mp hc, hdc⟩, hdh⟩
    · rintro ⟨d, ⟨c, hc, hdc⟩, hdh⟩
      exact ⟨d, ⟨c, hperm.mem_iff.mpr hc, hdc⟩, hdh⟩

/-- The 24×24 icon group of the test suite, used as C8's witness input. -/
def iconGroup : Node :=
  .mk { blankCore with
          id := "ICON"
          type := "GROUP"
          absoluteBoundingBox := some ⟨⟨350, 1⟩, ⟨10, 1⟩, ⟨24, 1⟩, ⟨24, 1⟩⟩ }
    [.mk { blankCore with
             id := "V1"
             type := "VECTOR"
             absoluteBoundingBox := some ⟨⟨350, 1⟩, ⟨10, 1⟩, ⟨24, 1⟩, ⟨24, 1⟩⟩
             fills := some [] } []]

/-- A plain node for C8's permutation witness. -/
def c8a : Node := .mk { blankCore with id := "a" } []

/-- A vector node for C8's permutation witness. -/
def c8b : Node := .mk { blankCore with id := "b", type := "VECTOR" } []

/-- C8, witness: the collapse-predicate theorem applied to the concrete
24×24 icon group, a two-element scan permutation, and a concrete size
comparison. -/
theorem c8_collapse_predicate_witness :
    (shouldTreatAsSingleContainer iconGroup = true ↔
      ((∃ bb, iconGroup.core.absoluteBoundingBox = some bb
          ∧ bb.width.leB (.ofInt 128) = true ∧ bb.height.leB (.ofInt 128) = true)
        ∧ containerKinds.contains iconGroup.core.type = true
        ∧ ∃ d ∈ visibleDescList iconGroup.children, scanHit d = true))
    ∧ scanTriggerList [c8a, c8b] = scanTriggerList [c8b, c8a]
    ∧ (JsNum.leB ⟨24, 1⟩ ⟨128, 1⟩ = true ↔ JsNum.toRat ⟨24, 1⟩ ≤ JsNum.toRat ⟨128, 1⟩) :=
  ⟨c8_collapse_predicate.1 iconGroup,
   c8_collapse_predicate.2.1 [c8a, c8b] [c8b, c8a] (List.Perm.swap c8b c8a []),
   c8_collapse_predicate.2.2 ⟨24, 1⟩ ⟨128, 1⟩ (by norm_num [JsNum.wf]) (by norm_num [JsNum.wf])⟩

mutual

theorem htmlClassList_emptyMap : ∀ n : Node,
    htmlClassList (fun _ => none) n
      = (visiblePreorder n).map (fun m => safeClass m.core.id)
  | .mk core cs => by
    simp only [htmlClassList, visiblePreorder]
    by_cases hv : core.visible = some false
    · rw [if_pos hv, if_pos hv]
      rfl
    · rw [if_neg hv, if_neg hv]
      show safeClass core.id :: htmlClassListL (fun _ => none) cs = _
      rw [htmlClassListL_emptyMap cs, List.map_cons]
      rfl

theorem htmlClassListL_emptyMap : ∀ l : List Node,
    htmlClassListL (fun _ => none) l
      = (visiblePreorderL l).map (fun m => safeClass m.core.id)
  | [] => rfl
  | c :: r => by
    rw [htmlClassListL, visiblePreorderL, List.map_append,
      htmlClassList_emptyMap c, htmlClassListL_emptyMap r]

end

mutual

theorem cssSelectorList_emptyMap : ∀ n : Node,
    cssSelectorList (fun _ => none) n
      = (visiblePreorder n).map (fun m => "." ++ safeClass m.core.id)
  | .mk core cs => by
    simp only [cssSelectorList, visiblePreorder]
    by_cases hv : core.visible = some false
    · rw [if_pos hv, if_pos hv]
      rfl
    · rw [if_neg hv, if_neg hv]
      show ("." ++ safeClass core.id) :: cssSelectorListL (fun _ => none) cs = _
      rw [cssSelectorListL_emptyMap cs, List.map_cons]
      rfl

theorem cssSelectorListL_emptyMap : ∀ l : List Node,
    cssSelectorListL (fun _ => none) l
      = (visiblePreorderL l).map (fun m => "." ++ safeClass m.core.id)
  | [] => rfl
  | c :: r => by
    rw [cssSelectorListL, visiblePreorderL, List.map_append,
      cssSelectorList_emptyMap c, cssSelectorListL_emptyMap r]

end

mutual

theorem mem_htmlClassList : ∀ (map : ImagesMap) (n : Node) (x : String),
    x ∈ htmlClassList map n → ∃ m ∈ visiblePreorder n, x = safeClass m.core.id
  | map, .mk core cs, x => by
    simp only [htmlClassList]
    by_cases hv : core.visible = some false
    · rw [if_pos hv]
      intro h
      exact absurd h (List.not_mem_nil x)
    · rw [if_neg hv]
      intro h
      have hmem : x = safeClass core.id ∨ x ∈ htmlClassListL map cs := by
        by_cases h1 : (strTruthy (map core.id)
            && shouldTreatAsSingleContainer (Node.mk core cs)) = true
        · rw [if_pos h1] at h
          exact Or.inl (List.mem_singleton.mp h)
        · rw [if_neg h1] at h
          by_cases h2 : (strTruthy (map core.id)
              && (vectorLikeKinds.contains core.type || cs.isEmpty)) = true
          · rw [if_pos h2] at h
            exact Or.inl (List.mem_singleton.mp h)
          · rw [if_neg h2] at h
            exact List.mem_cons.mp h
      rcases hmem with h3 | h3
      · refine ⟨.mk core cs, ?_, h3⟩
        rw [visiblePreorder, if_neg hv]
        exact List.mem_cons_self ..
      · rcases mem_htmlClassListL map cs x h3 with ⟨m, hm, hx⟩
        refine ⟨m, ?_, hx⟩
        rw [visiblePreorder, if_neg hv]
        exact List.mem_cons_of_mem _ hm

theorem mem_htmlClassListL : ∀ (map : ImagesMap) (l : List Node) (x : String),
    x ∈ htmlClassListL map l → ∃ m ∈ visiblePreorderL l, x = safeClass m.core.id
  | map, [], x => by
    intro h
    exact absurd h (List.not_mem_nil x)
  | map, c :: r, x => by
    rw [htmlClassListL, visiblePreorderL]
    intro h
    rcases List.mem_append.mp h with h1 | h1
    · rcases mem_htmlClassList map c x h1 with ⟨m, hm, hx⟩
      exact ⟨m, List.mem_append.mpr (Or.inl hm), hx⟩
    · rcases mem_htmlClassListL map r x h1 with ⟨m, hm, hx⟩
      exact ⟨m, List.mem_append.mpr (Or.inr hm), hx⟩

end

mutual

theorem mem_cssSelectorList : ∀ (map : ImagesMap) (n : Node) (x : String),
    x ∈ cssSelectorList map n → ∃ m ∈ visiblePreorder n, x = "." ++ safeClass m.core.id
  | map, .mk core cs, x => by
    simp only [cssSelectorList]
    by_cases hv : core.visible = some false
    · rw [if_pos hv]
      intro h
      exact absurd h (List.not_mem_nil x)
    · rw [if_neg hv]
      intro h
      have hmem : x = "." ++ safeClass core.id ∨ x ∈ cssSelectorListL map cs := by
        by_cases h1 : (strTruthy (map core.id)
            && shouldTreatAsSingleContainer (Node.mk core cs)) = true
        · rw [if_pos h1] at h
          exact Or.inl (List.mem_singleton.mp h)
        · rw [if_neg h1] at h
          exact List.mem_cons.mp h
      rcases hmem with h3 | h3
      · refine ⟨.mk core cs, ?_, h3⟩
        rw [visiblePreorder, if_neg hv]
        exact List.mem_cons_self ..
      · rcases mem_cssSelectorListL map cs x h3 with ⟨m, hm, hx⟩
        refine ⟨m, ?_, hx⟩
        rw [visiblePreorder, if_neg hv]
        exact List.mem_cons_of_mem _ hm

theorem mem_cssSelectorListL : ∀ (map : ImagesMap) (l : List Node) (x : String),
    x ∈ cssSelectorListL map l → ∃ m ∈ visiblePreorderL l, x = "." ++ safeClass m.core.id
  | map, [], x => by
    intro h
    exact absurd h (List.not_mem_nil x)
  | map, c :: r, x => by
    rw [cssSelectorListL, visiblePreorderL]
    intro h
    rcases List.mem_append.mp h with h1 | h1
    · rcases mem_cssSelectorList map c x h1 with ⟨m, hm, hx⟩
      exact ⟨m, List.mem_append.mpr (Or.inl hm), hx⟩
    · rcases mem_cssSelectorListL map r x h1 with ⟨m, hm, hx⟩
      exact ⟨m, List.mem_append.mpr (Or.inr hm), hx⟩

end

/-- The C1 counterexample tree: two distinct visible ids that sanitize to
the same selector. -/
def c1tree : Node :=
  .mk { blankCore with id := "R" }
    [.mk { blankCore with id := "1:2" } [], .mk { blankCore with id := "1;2" } []]

/-- C1, counterexample: in `c1tree` (empty image map) the node with id
`"1:2"` is visible and reachable, yet its derived selector `n_1_2`
appears on two emitted elements and two rule selectors — not exactly one
— because the distinct id `"1;2"` sanitizes to the same selector. -/
theorem c1_counterexample :
    (visiblePreorder c1tree).map (fun m => m.core.id) = ["R", "1:2", "1;2"]
    ∧ List.count (safeClass "1:2") (htmlClassList (fun _ => none) c1tree) = 2
    ∧ List.count ("." ++ safeClass "1:2") (cssSelectorList (fun _ => none) c1tree) = 2 := by
  refine ⟨by decide, by decide, by decide⟩

/-- C1 (amended): with the empty image map (no collapsing), the emitted
element classes are exactly the derived selectors of the visible
pre-order nodes, and the emitted rule selectors (beyond `#frame`) are
exactly their dotted forms; *provided the visible nodes' derived
selectors are pairwise distinct*, every visible node's selector occurs
on exactly one element and exactly one rule, and every rule selector
comes from a visible node — a bijection. -/
theorem c1_selector_pairing (root : Node)
    (hnd : ((visiblePreorder root).map (fun m => safeClass m.core.id)).Nodup) :
    htmlClassList (fun _ => none) root
      = (visiblePreorder root).map (fun m => safeClass m.core.id)
    ∧ cssSelectorList (fun _ => none) root
        = (visiblePreorder root).map (fun m => "." ++ safeClass m.core.id)
    ∧ (∀ m ∈ visiblePreorder root,
        List.count (safeClass m.core.id) (htmlClassList (fun _ => none) root) = 1
        ∧ List.count ("." ++ safeClass m.core.id) (cssSelectorList (fun _ => none) root) = 1)
    ∧ (∀ s ∈ cssSelectorList (fun _ => none) root,
        ∃ m ∈ visiblePreorder root, s = "." ++ safeClass m.core.id) := by
  have h1 := htmlClassList_emptyMap root
  have h2 := cssSelectorList_emptyMap root
  have hinj : Function.Injective (fun s : String => "." ++ s) := fun a b h =>
    strAppendCancelLeft h
  have hnd2 : ((visiblePreorder root).map (fun m => "." ++ safeClass m.core.id)).Nodup := by
    have hmm : (visiblePreorder root).map (fun m => "." ++ safeClass m.core.id)
        = ((visiblePreorder root).map (fun m => safeClass m.core.id)).map
            (fun s => "." ++ s) := by
      rw [List.map_map]
      rfl
    rw [hmm]
    exact hnd.map hinj
  refine ⟨h1, h2, ?_, ?_⟩
  · intro m hm
    constructor
    · rw [h1]
      exact List.count_eq_one_of_mem hnd (List.mem_map_of_mem _ hm)
    · rw [h2]
      exact List.count_eq_one_of_mem hnd2 (List.mem_map_of_mem _ hm)
  · intro s hs
    exact mem_cssSelectorList (fun _ => none) root s hs

/-- The concrete distinct-selector tree of C1's witness. -/
def c1w : Node :=
  .mk { blankCore with id := "F1" }
    [.mk { blankCore with id := "BG" } [],
     .mk { blankCore with id := "T1", type := "TEXT" } []]

/-- C1, witness: the pairing theorem applied to a concrete frame with
two children whose selectors are pairwise distinct. -/
theorem c1_selector_pairing_witness :
    htmlClassList (fun _ => none) c1w
      = (visiblePreorder c1w).map (fun m => safeClass m.core.id)
    ∧ List.count (safeClass "BG") (htmlClassList (fun _ => none) c1w) = 1 := by
  have hm : (Node.mk { blankCore with id := "BG" } []) ∈ visiblePreorder c1w := by
    show (Node.mk { blankCore with id := "BG" } [])
      ∈ (c1w :: Node.mk { blankCore with id := "BG" } []
          :: Node.mk { blankCore with id := "T1", type := "TEXT" } [] :: [])
    exact List.mem_cons_of_mem _ (List.mem_cons_self ..)
  have h := c1_selector_pairing c1w (by decide)
  exact ⟨h.1, (h.2.2.1 (Node.mk { blankCore with id := "BG" } []) hm).1⟩

mutual

theorem count_vp_le_tree : ∀ (n : Node) (s : String),
    List.count s ((visiblePreorder n).map (fun m => safeClass m.core.id))
      ≤ List.count s ((treeNodes n).map (fun m => safeClass m.core.id))
  | .mk core cs, s => by
    rw [treeNodes, visiblePreorder]
    by_cases hv : core.visible = some false
    · rw [if_pos hv]
      simp
    · rw [if_neg hv, List.map_cons, List.map_cons, List.count_cons, List.count_cons]
      have h := count_vpl_le_treeL cs s
      omega

theorem count_vpl_le_treeL : ∀ (l : List Node) (s : String),
    List.count s ((visiblePreorderL l).map (fun m => safeClass m.core.id))
      ≤ List.count s ((treeNodesL l).map (fun m => safeClass m.core.id))
  | [], _ => le_refl _
  | c :: r, s => by
    rw [visiblePreorderL, treeNodesL, List.map_append, List.map_append,
      List.count_append, List.count_append]
    have h1 := count_vp_le_tree c s
    have h2 := count_vpl_le_treeL r s
    omega

end

mutual

theorem count_vp_add_subtree_le : ∀ (root v : Node) (s : String),
    v ∈ treeNodes root → v.core.visible = some false →
    List.count s ((visiblePreorder root).map (fun m => safeClass m.core.id))
      + List.count s ((treeNodes v).map (fun m => safeClass m.core.id))
      ≤ List.count s ((treeNodes root).map (fun m => safeClass m.core.id))
  | .mk core cs, v, s => by
    intro hv hinv
    rw [treeNodes] at hv
    rcases List.mem_cons.mp hv with heq | hmem
    · subst heq
      simp only [Node.core] at hinv
      rw [visiblePreorder, if_pos hinv]
      simp
    · rw [treeNodes, visiblePreorder]
      by_cases hvis : core.visible = some false
      · rw [if_pos hvis]
        simp only [List.map_nil, List.count_nil, Nat.zero_add, List.map_cons,
          List.count_cons]
        have h := count_vpl_add_subtree_le cs v s hmem hinv
        omega
      · rw [if_neg hvis, List.map_cons, List.map_cons, List.count_cons, List.count_cons]
        have h := count_vpl_add_subtree_le cs v s hmem hinv
        omega

theorem count_vpl_add_subtree_le : ∀ (l : List Node) (v : Node) (s : String),
    v ∈ treeNodesL l → v.core.visible = some false →
    List.count s ((visiblePreorderL l).map (fun m => safeClass m.core.id))
      + List.count s ((treeNodes v).map (fun m => safeClass m.core.id))
      ≤ List.count s ((treeNodesL l).map (fun m => safeClass m.core.id))
  | [], v, s => by
    intro h _
    exact absurd h (List.not_mem_nil v)
  | c :: r, v, s => by
    intro hv hinv
    rw [treeNodesL] at hv
    rw [visiblePreorderL, treeNodesL, List.map_append, List.map_append,
      List.count_append, List.count_append]
    rcases List.mem_append.mp hv with h1 | h1
    · have hE := count_vp_add_subtree_le c v s h1 hinv
      have hF := count_vpl_le_treeL r s
      omega
    · have hE := count_vpl_add_subtree_le r v s h1 hinv
      have hF := count_vp_le_tree c s
      omega

end

/-- The C4 counterexample tree: an invisible node `X` whose child has id
`"1:2"`, next to a visible sibling with the colliding id `"1;2"`. -/
def c4tree : Node :=
  .mk { blankCore with id := "R" }
    [.mk { blankCore with id := "X", visible := some false }
       [.mk { blankCore with id := "1:2" } []],
     .mk { blankCore with id := "1;2" } []]

/-- C4, counterexample: the node `"1:2"` lies inside an invisible subtree
of `c4tree`, yet its derived selector appears among the emitted element
classes and rule selectors (carried by the visible node `"1;2"`, whose
distinct id sanitizes to the same selector) — refuting "neither that
node's selector nor the selector of any of its descendants appears". -/
theorem c4_counterexample :
    (Node.mk { blankCore with id := "X", visible := some false }
        [.mk { blankCore with id := "1:2" } []]).core.visible = some false
    ∧ (Node.mk { blankCore with id := "X", visible := some false }
        [.mk { blankCore with id := "1:2" } []]) ∈ treeNodes c4tree
    ∧ (Node.mk { blankCore with id := "1:2" } [])
        ∈ treeNodes (Node.mk { blankCore with id := "X", visible := some false }
            [.mk { blankCore with id := "1:2" } []])
    ∧ safeClass "1:2" ∈ htmlClassList (fun _ => none) c4tree
    ∧ ("." ++ safeClass "1:2") ∈ cssSelectorList (fun _ => none) c4tree := by
  refine ⟨rfl, ?_, ?_, by decide, by decide⟩
  · show _ ∈ (c4tree
      :: Node.mk { blankCore with id := "X", visible := some false }
           [.mk { blankCore with id := "1:2" } []]
      :: Node.mk { blankCore with id := "1:2" } []
      :: Node.mk { blankCore with id := "1;2" } [] :: [])
    exact List.mem_cons_of_mem _ (List.mem_cons_self ..)
  · show _ ∈ (Node.mk { blankCore with id := "X", visible := some false }
        [.mk { blankCore with id := "1:2" } []]
      :: Node.mk { blankCore with id := "1:2" } [] :: [])
    exact List.mem_cons_of_mem _ (List.mem_cons_self ..)

/-- C4 (amended): for every image map, and *provided all nodes of the
tree have pairwise-distinct derived selectors*, if `v` is a
`visible === false` node of the tree then neither `v`'s selector nor the
selector of any node of `v`'s subtree appears among the emitted element
classes of `generateHtmlFromFrame` or the emitted rule selectors of
`generateCssFromFrame` — the entire subtree is pruned from both
outputs. -/
theorem c4_invisible_pruning (root v d : Node) (map : ImagesMap)
    (hnd : ((treeNodes root).map (fun m => safeClass m.core.id)).Nodup)
    (hv : v ∈ treeNodes root) (hinv : v.core.visible = some false)
    (hd : d ∈ treeNodes v) :
    safeClass d.core.id ∉ htmlClassList map root
    ∧ ("." ++ safeClass d.core.id) ∉ cssSelectorList map root := by
  have hcount := count_vp_add_subtree_le root v (safeClass d.core.id) hv hinv
  have hone : List.count (safeClass d.core.id)
      ((treeNodes root).map (fun m => safeClass m.core.id)) ≤ 1 :=
    List.nodup_iff_count_le_one.mp hnd _
  have hdc : 0 < List.count (safeClass d.core.id)
      ((treeNodes v).map (fun m => safeClass m.core.id)) :=
    List.count_pos_iff.mpr (List.mem_map_of_mem _ hd)
  have hzero : List.count (safeClass d.core.id)
      ((visiblePreorder root).map (fun m => safeClass m.core.id)) = 0 := by
    omega
  have hnotvp : safeClass d.core.id
      ∉ (visiblePreorder root).map (fun m => safeClass m.core.id) :=
    List.count_eq_zero.mp hzero
  constructor
  · intro hmem
    rcases mem_htmlClassList map root _ hmem with ⟨m, hm, hx⟩
    exact hnotvp (hx ▸ List.mem_map_of_mem _ hm)
  · intro hmem
    rcases mem_cssSelectorList map root _ hmem with ⟨m, hm, hx⟩
    have hx2 : safeClass d.core.id = safeClass m.core.id := strAppendCancelLeft hx
    exact hnotvp (hx2 ▸ List.mem_map_of_mem _ hm)

/-- The concrete tree of C4's witness: distinct selectors, invisible
subtree `X` containing `D`. -/
def c4w : Node :=
  .mk { blankCore with id := "R" }
    [.mk { blankCore with id := "X", visible := some false }
       [.mk { blankCore with id := "D" } []]]

/-- C4, witness: the pruning theorem applied to `c4w` — the selector of
the node `D` inside the invisible subtree appears in neither output. -/
theorem c4_invisible_pruning_witness :
    safeClass "D" ∉ htmlClassList (fun _ => none) c4w
    ∧ ("." ++ safeClass "D") ∉ cssSelectorList (fun _ => none) c4w := by
  have h := c4_invisible_pruning c4w
    (.mk { blankCore with id := "X", visible := some false }
      [.mk { blankCore with id := "D" } []])
    (.mk { blankCore with id := "D" } []) (fun _ => none)
    (by decide)
    (by
      show _ ∈ (c4w
        :: Node.mk { blankCore with id := "X", visible := some false }
             [.mk { blankCore with id := "D" } []]
        :: Node.mk { blankCore with id := "D" } [] :: [])
      exact List.mem_cons_of_mem _ (List.mem_cons_self ..))
    rfl
    (by
      show _ ∈ (Node.mk { blankCore with id := "X", visible := some false }
             [.mk { blankCore with id := "D" } []]
        :: Node.mk { blankCore with id := "D" } [] :: [])
      exact List.mem_cons_of_mem _ (List.mem_cons_self ..))
  exact h
